import Mathlib

/-!
Verification development for the Gemini image-creator app (`src/app.py`).

The program is a thin Streamlit front-end around a remote generative model:
`initialize_client` resolves the API key, `generate_image` / `modify_image`
send one request each and fold the response parts into a
`{image, text}` record (last write wins per kind, with a catch-all error
boundary), and `main` drives one interaction: it keeps a single
`last_generated_image` session slot, offers a download button when an image
was produced, and guards modify mode against having no source image.

The remote call, the Streamlit widgets and the PIL image codec are external
collaborators; they are modelled explicitly below (the remote call as a
function from requests to either a raised error or a response; the PIL PNG
codec as a lossless pixel codec, as the spec describes it).
-/

namespace ImageApp

/-- Raw bytes, as a list of byte values. -/
abbrev Bytes := List Nat

/-- Modelled from the spec: an in-memory PIL image object ("optional binary
image" in the data model), reduced to its pixel content: a width, a height
and the flat list of pixel bytes. The codec below treats PNG as a lossless
pixel codec, which is how the spec's round-trip property describes it. -/
structure Img where
  width : Nat
  height : Nat
  pixels : Bytes
deriving DecidableEq

/-- Modelled from the spec: `image.save(buffer, format="PNG")` — serialise an
image to PNG bytes. PNG is lossless on pixels, so the encoding keeps the
dimensions and the exact pixel bytes. -/
def encodePNG (img : Img) : Bytes :=
  img.width :: img.height :: img.pixels

/-- Modelled from the spec: `Image.open(BytesIO(data))` — decode bytes into
an image, failing (`none`, an exception in the source) on malformed input:
too short, or a pixel payload that does not match the declared dimensions. -/
def decodePNG : Bytes → Option Img
  | w :: h :: rest => if rest.length = w * h then some ⟨w, h, rest⟩ else none
  | _ => none

/-- One content part of a remote response: either a text segment, inline
binary data, both, or neither (`part.text` / `part.inline_data` in the
source are each independently nullable). -/
structure Part where
  text : Option String
  inline_data : Option Bytes
deriving DecidableEq

/-- `content` of a response candidate: the ordered sequence of parts. -/
structure Content where
  parts : List Part
deriving DecidableEq

/-- One candidate of a remote response. -/
structure Candidate where
  content : Content
deriving DecidableEq

/-- A remote response: `response.candidates` (the source reads index 0). -/
structure Response where
  candidates : List Candidate
deriving DecidableEq

/-- The request payload: `contents=prompt` for generation,
`contents=[prompt, image]` for modification. -/
inductive Contents where
  | single (prompt : String)
  | pair (prompt : String) (image : Img)
deriving DecidableEq

/-- The request sent by `client.models.generate_content`. -/
structure Request where
  model : String
  contents : Contents
  response_modalities : List String
deriving DecidableEq

/-- The behaviour of the remote service on one request: either a raised
error (transport, authentication, ...) carrying its message, or a response. -/
def Remote : Type := Request → Except String Response

/-- The `result` dictionary built by `generate_image` / `modify_image`. -/
structure GenerationResult where
  image : Option Img
  text : Option String
deriving DecidableEq

/-- The request built by `generate_image`. -/
def mkGenerateRequest (prompt : String) : Request :=
  { model := "gemini-2.0-flash-exp-image-generation"
    contents := .single prompt
    response_modalities := ["Text", "Image"] }

/-- The request built by `modify_image`: the ordered pair `[prompt, image]`. -/
def mkModifyRequest (prompt : String) (image : Img) : Request :=
  { model := "gemini-2.0-flash-exp-image-generation"
    contents := .pair prompt image
    response_modalities := ["Text", "Image"] }

/-- The part loop of `generate_image` (`src/app.py` lines 37-42): fold the
parts in order into `result`, text first (`if part.text is not None`), else
inline data decoded via `Image.open`; a decoding failure raises, which the
surrounding `try` turns into an error. -/
def processParts : List Part → GenerationResult → Except String GenerationResult
  | [], r => .ok r
  | p :: ps, r =>
    match p.text with
    | some t => processParts ps { r with text := some t }
    | none =>
      match p.inline_data with
      | some d =>
        match decodePNG d with
        | some img => processParts ps { r with image := some img }
        | none => .error "cannot identify image file"
      | none => processParts ps r

/-- The part loop of `modify_image` (`src/app.py` lines 62-67), kept as its
own definition because the source duplicates the loop verbatim. -/
def processPartsM : List Part → GenerationResult → Except String GenerationResult
  | [], r => .ok r
  | p :: ps, r =>
    match p.text with
    | some t => processPartsM ps { r with text := some t }
    | none =>
      match p.inline_data with
      | some d =>
        match decodePNG d with
        | some img => processPartsM ps { r with image := some img }
        | none => .error "cannot identify image file"
      | none => processPartsM ps r

/-- `response.candidates[0].content.parts` followed by the part loop of
`generate_image`; indexing an empty candidate list raises (caught above). -/
def decodeResponse (resp : Response) : Except String GenerationResult :=
  match resp.candidates.head? with
  | none => .error "list index out of range"
  | some c => processParts c.content.parts ⟨none, none⟩

/-- The same for `modify_image`, using its own copy of the loop. -/
def decodeResponseM (resp : Response) : Except String GenerationResult :=
  match resp.candidates.head? with
  | none => .error "list index out of range"
  | some c => processPartsM c.content.parts ⟨none, none⟩

/-- The body of `generate_image`'s `try` block: the remote call followed by
the response decoding. -/
def generateAttempt (prompt : String) (client : Remote) :
    Except String GenerationResult :=
  (client (mkGenerateRequest prompt)).bind decodeResponse

/-- The body of `modify_image`'s `try` block. -/
def modifyAttempt (prompt : String) (image : Img) (client : Remote) :
    Except String GenerationResult :=
  (client (mkModifyRequest prompt image)).bind decodeResponseM

/-- `generate_image` (`src/app.py` lines 25-47): the attempt, wrapped in the
catch-all boundary; on any raised error it shows
`"Error generating image: ..."` via `st.error` and returns no result
(modelled as `.error` carrying the displayed message). -/
def generate_image (prompt : String) (client : Remote) :
    Except String GenerationResult :=
  match generateAttempt prompt client with
  | .ok r => .ok r
  | .error e => .error ("Error generating image: " ++ e)

/-- `modify_image` (`src/app.py` lines 50-72): same shape, with message
`"Error modifying image: ..."`. -/
def modify_image (prompt : String) (image : Img) (client : Remote) :
    Except String GenerationResult :=
  match modifyAttempt prompt image client with
  | .ok r => .ok r
  | .error e => .error ("Error modifying image: " ++ e)

/-- Python truthiness of the optional API-key string: `None` and `""` are
falsy (`if not api_key`). -/
def truthy : Option String → Bool
  | none => false
  | some s => !(s == "")

/-- `initialize_client` (`src/app.py` lines 13-22), modelling the key
sources explicitly: `secrets` is the secret-store entry (`none` when the key
is absent, in which case `st.secrets.get` falls back to the environment
value `envKey`), and `keyInput` is what `st.text_input` returns (`""` when
the user typed nothing). A falsy key falls through to the interactive
prompt; a falsy prompt answer warns and calls `st.stop()` (`none`).
Returns the resolved API key. -/
def init_client (secrets envKey : Option String) (keyInput : String) :
    Option String :=
  let apiKey := secrets.or envKey
  if truthy apiKey then apiKey
  else if keyInput == "" then none
  else some keyInput

/-- The sidebar page choice. -/
inductive Page where
  | generate
  | modify
deriving DecidableEq

/-- The widget values of one script run: credential sources, page, prompt
texts, the two buttons, the file uploader (raw bytes of the uploaded file,
if any) and the "Use last generated image" checkbox. -/
structure UIInputs where
  secrets : Option String
  envKey : Option String
  keyInput : String
  page : Page
  prompt : String
  generateClicked : Bool
  uploaded : Option Bytes
  useLastCheckbox : Bool
  modPrompt : String
  modifyClicked : Bool

/-- The externally visible effects of one run of `main`: which remote calls
were attempted, whether a download button was offered, whether the
"Please upload an image or generate one first" guidance was shown, whether
the missing-key warning fired, the error message (if `st.error` ran), and
whether the run was halted by `st.stop()`. -/
structure Effects where
  calls : List Request
  downloadOffered : Bool
  infoShown : Bool
  warnedMissingKey : Bool
  errorMsg : Option String
  stopped : Bool
deriving DecidableEq

/-- The outcome of one run of `main`: the new session slot
(`st.session_state.last_generated_image`) and the visible effects. -/
structure RunResult where
  session : Option Img
  effects : Effects
deriving DecidableEq

/-- Effects of the `st.stop()` path of `init_client`: warning shown, run
halted, no call made. -/
def stopEffects : Effects :=
  ⟨[], false, false, true, none, true⟩

/-- Effects of an idle run (no button clicked): nothing happens. -/
def idleEffects : Effects :=
  ⟨[], false, false, false, none, false⟩

/-- Effects of the modify-mode guard (`st.info` then `return`): guidance
shown, no call made. -/
def infoEffects : Effects :=
  ⟨[], false, true, false, none, false⟩

/-- Effects of a completed remote call `req` that produced an image:
download button offered. -/
def successEffects (req : Request) : Effects :=
  ⟨[req], true, false, false, none, false⟩

/-- Effects of a completed remote call `req` whose result had no image:
nothing displayed, no download button. -/
def noImageEffects (req : Request) : Effects :=
  ⟨[req], false, false, false, none, false⟩

/-- Effects of a remote call `req` that failed with message `e`. -/
def failureEffects (req : Request) (e : String) : Effects :=
  ⟨[req], false, false, false, some e, false⟩

/-- The "Modify Image" button handler (`src/app.py` lines 141-165), given
the already resolved source `image`: call `modify_image`; on
`result and result["image"]` display, offer the download and overwrite the
session slot; otherwise leave the slot alone. -/
def runModify (session : Option Img) (ui : UIInputs) (remote : Remote)
    (image : Img) : RunResult :=
  if ui.modifyClicked then
    match modify_image ui.modPrompt image remote with
    | .error e => ⟨session, failureEffects (mkModifyRequest ui.modPrompt image) e⟩
    | .ok r =>
      match r.image with
      | some img => ⟨some img, successEffects (mkModifyRequest ui.modPrompt image)⟩
      | none => ⟨session, noImageEffects (mkModifyRequest ui.modPrompt image)⟩
  else ⟨session, idleEffects⟩

/-- One run of `main` (`src/app.py` lines 75-165) from session slot
`session` with widget values `ui` against remote behaviour `remote`.
`Except.error` models an exception `main` itself does not catch (only
possible when `Image.open` fails on an uploaded file, line 128). -/
def run_main (session : Option Img) (ui : UIInputs) (remote : Remote) :
    Except String RunResult :=
  match init_client ui.secrets ui.envKey ui.keyInput with
  | none => .ok ⟨session, stopEffects⟩
  | some _ =>
    match ui.page with
    | .generate =>
      if ui.generateClicked then
        match generate_image ui.prompt remote with
        | .error e => .ok ⟨session, failureEffects (mkGenerateRequest ui.prompt) e⟩
        | .ok r =>
          match r.image with
          | some img => .ok ⟨some img, successEffects (mkGenerateRequest ui.prompt)⟩
          | none => .ok ⟨session, noImageEffects (mkGenerateRequest ui.prompt)⟩
      else .ok ⟨session, idleEffects⟩
    | .modify =>
      match ui.uploaded with
      | some fileBytes =>
        match decodePNG fileBytes with
        | none => .error "cannot identify image file"
        | some image => .ok (runModify session ui remote image)
      | none =>
        match session with
        | some image =>
          if ui.useLastCheckbox then .ok (runModify session ui remote image)
          else .ok ⟨session, infoEffects⟩
        | none => .ok ⟨session, infoEffects⟩

/-- The value the last part of the list for which `f` fires contributes:
`none` when no part fires. Characterises "last write wins" for one kind. -/
def lastOf {α : Type} (f : Part → Option α) : List Part → Option α
  | [] => none
  | p :: ps => (lastOf f ps).or (f p)

/-- The inline data a part contributes to the image field: only when the
part has no text (the `elif` makes the text branch win within one part). -/
def imageDataOf (p : Part) : Option Bytes :=
  match p.text with
  | some _ => none
  | none => p.inline_data

/-- An image field is valid when it is `none` or holds a decoded image. -/
def ValidImageField (o : Option Img) : Prop :=
  o = none ∨ ∃ d, decodePNG d = o

/-- Unfolding: a part with text takes the text branch. -/
theorem processParts_cons_text (p : Part) (ps : List Part)
    (r : GenerationResult) (t : String) (hpt : p.text = some t) :
    processParts (p :: ps) r = processParts ps { r with text := some t } := by
  simp [processParts, hpt]

/-- Unfolding: a textless part with decodable inline data takes the image
branch. -/
theorem processParts_cons_img (p : Part) (ps : List Part)
    (r : GenerationResult) (d : Bytes) (img : Img) (hpt : p.text = none)
    (hpd : p.inline_data = some d) (hdec : decodePNG d = some img) :
    processParts (p :: ps) r = processParts ps { r with image := some img } := by
  simp [processParts, hpt, hpd, hdec]

/-- Unfolding: a textless part with undecodable inline data raises. -/
theorem processParts_cons_bad (p : Part) (ps : List Part)
    (r : GenerationResult) (d : Bytes) (hpt : p.text = none)
    (hpd : p.inline_data = some d) (hdec : decodePNG d = none) :
    processParts (p :: ps) r = .error "cannot identify image file" := by
  simp [processParts, hpt, hpd, hdec]

/-- Unfolding: a part with neither text nor inline data is skipped. -/
theorem processParts_cons_skip (p : Part) (ps : List Part)
    (r : GenerationResult) (hpt : p.text = none)
    (hpd : p.inline_data = none) :
    processParts (p :: ps) r = processParts ps r := by
  simp [processParts, hpt, hpd]

/-- Unfolding for `modify_image`'s copy of the loop: text branch. -/
theorem processPartsM_cons_text (p : Part) (ps : List Part)
    (r : GenerationResult) (t : String) (hpt : p.text = some t) :
    processPartsM (p :: ps) r = processPartsM ps { r with text := some t } := by
  simp [processPartsM, hpt]

/-- Unfolding for `modify_image`'s copy of the loop: image branch. -/
theorem processPartsM_cons_img (p : Part) (ps : List Part)
    (r : GenerationResult) (d : Bytes) (img : Img) (hpt : p.text = none)
    (hpd : p.inline_data = some d) (hdec : decodePNG d = some img) :
    processPartsM (p :: ps) r = processPartsM ps { r with image := some img } := by
  simp [processPartsM, hpt, hpd, hdec]

/-- Unfolding for `modify_image`'s copy of the loop: decode failure. -/
theorem processPartsM_cons_bad (p : Part) (ps : List Part)
    (r : GenerationResult) (d : Bytes) (hpt : p.text = none)
    (hpd : p.inline_data = some d) (hdec : decodePNG d = none) :
    processPartsM (p :: ps) r = .error "cannot identify image file" := by
  simp [processPartsM, hpt, hpd, hdec]

/-- Unfolding for `modify_image`'s copy of the loop: empty part skipped. -/
theorem processPartsM_cons_skip (p : Part) (ps : List Part)
    (r : GenerationResult) (hpt : p.text = none)
    (hpd : p.inline_data = none) :
    processPartsM (p :: ps) r = processPartsM ps r := by
  simp [processPartsM, hpt, hpd]

/-- In a successful fold, the last image datum written must have decoded. -/
theorem processParts_ok_lastData (parts : List Part) (r0 r : GenerationResult)
    (h : processParts parts r0 = .ok r) (d : Bytes)
    (hd : lastOf imageDataOf parts = some d) :
    ∃ img, decodePNG d = some img := by
  induction parts generalizing r0 with
  | nil => exact absurd hd (by simp [lastOf])
  | cons p ps ih =>
    cases hpt : p.text with
    | some t =>
      rw [processParts_cons_text p ps r0 t hpt] at h
      rw [lastOf, imageDataOf, hpt] at hd
      cases hlast : lastOf imageDataOf ps with
      | some d2 =>
        rw [hlast] at hd
        cases hd
        exact ih _ h hlast
      | none => rw [hlast] at hd; exact absurd hd (by simp [Option.or])
    | none =>
      cases hpd : p.inline_data with
      | some d0 =>
        cases hdec : decodePNG d0 with
        | some img =>
          rw [processParts_cons_img p ps r0 d0 img hpt hpd hdec] at h
          rw [lastOf, imageDataOf, hpt, hpd] at hd
          cases hlast : lastOf imageDataOf ps with
          | some d2 =>
            rw [hlast] at hd
            cases hd
            exact ih _ h hlast
          | none =>
            rw [hlast] at hd
            simp only [Option.or] at hd
            cases hd
            exact ⟨img, hdec⟩
        | none =>
          rw [processParts_cons_bad p ps r0 d0 hpt hpd hdec] at h
          exact absurd h (by simp)
      | none =>
        rw [processParts_cons_skip p ps r0 hpt hpd] at h
        rw [lastOf, imageDataOf, hpt, hpd] at hd
        cases hlast : lastOf imageDataOf ps with
        | some d2 =>
          rw [hlast] at hd
          cases hd
          exact ih _ h hlast
        | none => rw [hlast] at hd; exact absurd hd (by simp [Option.or])

/-- Characterisation of a successful part fold: the text field is the last
text written (falling back to the initial one) and the image field is the
decoding of the last image datum written (falling back to the initial
image). -/
theorem processParts_ok_eq (parts : List Part) (r0 r : GenerationResult)
    (h : processParts parts r0 = .ok r) :
    r.text = (lastOf Part.text parts).or r0.text ∧
    r.image = ((lastOf imageDataOf parts).bind decodePNG).or r0.image := by
  induction parts generalizing r0 with
  | nil =>
    simp only [processParts] at h
    cases h
    simp [lastOf, Option.or]
  | cons p ps ih =>
    cases hpt : p.text with
    | some t =>
      rw [processParts_cons_text p ps r0 t hpt] at h
      obtain ⟨h1, h2⟩ := ih _ h
      constructor
      · rw [h1, lastOf, hpt]
        cases lastOf Part.text ps <;> simp [Option.or]
      · rw [h2, lastOf, imageDataOf, hpt]
        cases lastOf imageDataOf ps <;> simp [Option.or]
    | none =>
      cases hpd : p.inline_data with
      | some d =>
        cases hdec : decodePNG d with
        | some img =>
          rw [processParts_cons_img p ps r0 d img hpt hpd hdec] at h
          obtain ⟨h1, h2⟩ := ih _ h
          constructor
          · rw [h1, lastOf, hpt]
            cases lastOf Part.text ps <;> simp [Option.or]
          · rw [h2, lastOf, imageDataOf, hpt, hpd]
            cases hlast : lastOf imageDataOf ps with
            | none => simp [Option.or, hdec]
            | some d2 =>
              obtain ⟨i2, hi2⟩ := processParts_ok_lastData ps _ r h d2 hlast
              simp [Option.or, hi2]
        | none =>
          rw [processParts_cons_bad p ps r0 d hpt hpd hdec] at h
          exact absurd h (by simp)
      | none =>
        rw [processParts_cons_skip p ps r0 hpt hpd] at h
        obtain ⟨h1, h2⟩ := ih _ h
        constructor
        · rw [h1, lastOf, hpt]
          cases lastOf Part.text ps <;> simp [Option.or]
        · rw [h2, lastOf, imageDataOf, hpt, hpd]
          cases lastOf imageDataOf ps <;> simp [Option.or]

/-- The two copies of the part loop are the same function. -/
theorem processPartsM_eq_processParts (parts : List Part)
    (r : GenerationResult) : processPartsM parts r = processParts parts r := by
  induction parts generalizing r with
  | nil => rfl
  | cons p ps ih =>
    cases hpt : p.text with
    | some t =>
      rw [processPartsM_cons_text p ps r t hpt,
        processParts_cons_text p ps r t hpt]
      exact ih _
    | none =>
      cases hpd : p.inline_data with
      | some d =>
        cases hdec : decodePNG d with
        | some img =>
          rw [processPartsM_cons_img p ps r d img hpt hpd hdec,
            processParts_cons_img p ps r d img hpt hpd hdec]
          exact ih _
        | none =>
          rw [processPartsM_cons_bad p ps r d hpt hpd hdec,
            processParts_cons_bad p ps r d hpt hpd hdec]
      | none =>
        rw [processPartsM_cons_skip p ps r hpt hpd,
          processParts_cons_skip p ps r hpt hpd]
        exact ih _

/-- A successful part fold keeps the image field valid. -/
theorem processParts_valid (parts : List Part) (r0 r : GenerationResult)
    (h : processParts parts r0 = .ok r) (h0 : ValidImageField r0.image) :
    ValidImageField r.image := by
  induction parts generalizing r0 with
  | nil =>
    simp only [processParts] at h
    cases h
    exact h0
  | cons p ps ih =>
    cases hpt : p.text with
    | some t =>
      rw [processParts_cons_text p ps r0 t hpt] at h
      exact ih _ h h0
    | none =>
      cases hpd : p.inline_data with
      | some d =>
        cases hdec : decodePNG d with
        | some img =>
          rw [processParts_cons_img p ps r0 d img hpt hpd hdec] at h
          exact ih _ h (Or.inr ⟨d, hdec⟩)
        | none =>
          rw [processParts_cons_bad p ps r0 d hpt hpd hdec] at h
          exact absurd h (by simp)
      | none =>
        rw [processParts_cons_skip p ps r0 hpt hpd] at h
        exact ih _ h h0

/-- `Option.or` with `none` on the right is the identity. -/
theorem option_or_none {α : Type} (o : Option α) : o.or none = o := by
  cases o <;> rfl

/-- A successful `generate_image` comes from a successful attempt. -/
theorem generate_image_ok (prompt : String) (client : Remote)
    (r : GenerationResult) (h : generate_image prompt client = .ok r) :
    generateAttempt prompt client = .ok r := by
  rw [generate_image] at h
  cases hatt : generateAttempt prompt client with
  | ok r2 => rw [hatt] at h; exact h
  | error e => rw [hatt] at h; exact absurd h (by simp)

/-- A successful `modify_image` comes from a successful attempt. -/
theorem modify_image_ok (prompt : String) (image : Img) (client : Remote)
    (r : GenerationResult) (h : modify_image prompt image client = .ok r) :
    modifyAttempt prompt image client = .ok r := by
  rw [modify_image] at h
  cases hatt : modifyAttempt prompt image client with
  | ok r2 => rw [hatt] at h; exact h
  | error e => rw [hatt] at h; exact absurd h (by simp)

/-- A successful response decoding is a successful fold of the first
candidate's parts. -/
theorem decodeResponse_ok (resp : Response) (r : GenerationResult)
    (h : decodeResponse resp = .ok r) :
    ∃ c, resp.candidates.head? = some c ∧
      processParts c.content.parts ⟨none, none⟩ = .ok r := by
  rw [decodeResponse] at h
  cases hc : resp.candidates.head? with
  | none => rw [hc] at h; exact absurd h (by simp)
  | some c => rw [hc] at h; exact ⟨c, rfl, h⟩

/-- A successful attempt yields a valid image field. -/
theorem generateAttempt_ok_valid (prompt : String) (client : Remote)
    (r : GenerationResult) (h : generateAttempt prompt client = .ok r) :
    ValidImageField r.image := by
  rw [generateAttempt] at h
  cases hc : client (mkGenerateRequest prompt) with
  | error e => rw [hc] at h; exact absurd h (by simp [Except.bind])
  | ok resp =>
    rw [hc] at h
    simp only [Except.bind] at h
    obtain ⟨c, _, hpp⟩ := decodeResponse_ok resp r h
    exact processParts_valid _ _ _ hpp (Or.inl rfl)

/-- C1: for every remote response, `generate_image` folds the ordered parts
into `{image, text}` with last-write-wins per kind: the text field is the
text of the last part carrying text, and the image field is the decoding of
the inline data of the last part that took the image branch; earlier parts
of the same kind are discarded. -/
theorem generate_last_write_wins (prompt : String) (client : Remote)
    (parts : List Part) (r : GenerationResult)
    (hresp : client (mkGenerateRequest prompt) = .ok ⟨[⟨⟨parts⟩⟩]⟩)
    (hok : generate_image prompt client = .ok r) :
    r.text = lastOf Part.text parts ∧
    r.image = (lastOf imageDataOf parts).bind decodePNG := by
  have hatt := generate_image_ok prompt client r hok
  rw [generateAttempt, hresp] at hatt
  simp only [Except.bind, decodeResponse, List.head?] at hatt
  obtain ⟨h1, h2⟩ := processParts_ok_eq parts ⟨none, none⟩ r hatt
  rw [option_or_none] at h1
  rw [option_or_none] at h2
  exact ⟨h1, h2⟩

/-- A sample 1×1 image whose encoding is `[1, 1, 42]`. -/
def sampleImg : Img := ⟨1, 1, [42]⟩

/-- The parts `[text="a", image=X, text="b"]` of the spec's example. -/
def sampleParts : List Part :=
  [⟨some "a", none⟩, ⟨none, some [1, 1, 42]⟩, ⟨some "b", none⟩]

/-- A remote behaviour answering every request with `sampleParts`. -/
def sampleClient : Remote := fun _ => .ok ⟨[⟨⟨sampleParts⟩⟩]⟩

/-- Witness for C1, at the spec's own example `[text="a", image=X,
text="b"]`: the result is `{image := X, text := "b"}`. -/
theorem generate_last_write_wins_witness :
    (⟨some sampleImg, some "b"⟩ : GenerationResult).text =
      lastOf Part.text sampleParts ∧
    (⟨some sampleImg, some "b"⟩ : GenerationResult).image =
      (lastOf imageDataOf sampleParts).bind decodePNG :=
  generate_last_write_wins "p" sampleClient sampleParts
    ⟨some sampleImg, some "b"⟩ rfl rfl

/-- C2: for every prompt and every remote behaviour, `generate_image` is
total at its boundary: it either returns a result whose image field is
`none` or a validly decoded image and whose text field is `none` or a
string, or it catches the underlying error `e` and reports
`"Error generating image: e"` while yielding no result. -/
theorem generate_never_raises (prompt : String) (client : Remote) :
    (∃ r, generate_image prompt client = .ok r ∧ ValidImageField r.image ∧
      (r.text = none ∨ ∃ t, r.text = some t)) ∨
    (∃ e, generateAttempt prompt client = .error e ∧
      generate_image prompt client = .error ("Error generating image: " ++ e)) := by
  cases hatt : generateAttempt prompt client with
  | ok r =>
    left
    refine ⟨r, by rw [generate_image, hatt], generateAttempt_ok_valid prompt client r hatt, ?_⟩
    cases ht : r.text with
    | none => exact Or.inl rfl
    | some t => exact Or.inr ⟨t, rfl⟩
  | error e =>
    right
    exact ⟨e, rfl, by rw [generate_image, hatt]⟩

/-- The two response decoders agree (the source duplicates the loop). -/
theorem decodeResponseM_eq (resp : Response) :
    decodeResponseM resp = decodeResponse resp := by
  rw [decodeResponseM, decodeResponse]
  cases resp.candidates.head? with
  | none => rfl
  | some c => exact processPartsM_eq_processParts c.content.parts ⟨none, none⟩

/-- C3: `modify_image` has the same contract as `generate_image` — on equal
remote responses the two part-decoders produce equal `{image, text}`
results, and the same catch-all boundary reports the underlying cause, with
the modify wording — differing only in the request payload, which is the
ordered pair `(instruction, sourceImage)` instead of a bare prompt. -/
theorem modify_same_contract (inst : String) (img : Img) (cg cm : Remote)
    (hresp : cm (mkModifyRequest inst img) = cg (mkGenerateRequest inst)) :
    (∀ r, modify_image inst img cm = .ok r ↔ generate_image inst cg = .ok r) ∧
    (∀ e, generateAttempt inst cg = .error e →
      generate_image inst cg = .error ("Error generating image: " ++ e) ∧
      modify_image inst img cm = .error ("Error modifying image: " ++ e)) ∧
    (mkModifyRequest inst img).contents = .pair inst img ∧
    (mkGenerateRequest inst).contents = .single inst := by
  have hatt : modifyAttempt inst img cm = generateAttempt inst cg := by
    rw [modifyAttempt, generateAttempt, hresp]
    cases cg (mkGenerateRequest inst) with
    | ok resp =>
      simp only [Except.bind]
      exact decodeResponseM_eq resp
    | error e => rfl
  refine ⟨?_, ?_, rfl, rfl⟩
  · intro r
    rw [modify_image, generate_image, hatt]
    cases generateAttempt inst cg with
    | ok r2 => exact Iff.rfl
    | error e => simp
  · intro e he
    constructor
    · rw [generate_image, he]
    · rw [modify_image, hatt, he]

/-- Witness for C3 at a concrete response: both clients answer with
`sampleParts`, the request hypothesis holds definitionally, and the
conclusion is evaluated at that instance. -/
theorem modify_same_contract_witness :
    (∀ r, modify_image "p" sampleImg sampleClient = .ok r ↔
      generate_image "p" sampleClient = .ok r) ∧
    (∀ e, generateAttempt "p" sampleClient = .error e →
      generate_image "p" sampleClient = .error ("Error generating image: " ++ e) ∧
      modify_image "p" sampleImg sampleClient =
        .error ("Error modifying image: " ++ e)) ∧
    (mkModifyRequest "p" sampleImg).contents = .pair "p" sampleImg ∧
    (mkGenerateRequest "p").contents = .single "p" :=
  modify_same_contract "p" sampleImg sampleClient sampleClient rfl

/-- C4: the API key is resolved in priority order — secret store first,
then the environment variable, then the interactive prompt — and when all
three sources are absent (store entry and environment variable missing, no
text typed) `init_client` halts the run (`st.stop`); in a halted run no
remote call is made, so no generate or modify call is reachable without a
credential. Sources are taken as either absent or a nonempty key. -/
theorem api_key_priority (secrets envKey : Option String) (keyInput : String)
    (hs : secrets ≠ some "") (he : envKey ≠ some "") :
    (∀ s, secrets = some s → init_client secrets envKey keyInput = some s) ∧
    (secrets = none → ∀ s, envKey = some s →
      init_client secrets envKey keyInput = some s) ∧
    (secrets = none → envKey = none → keyInput ≠ "" →
      init_client secrets envKey keyInput = some keyInput) ∧
    (secrets = none → envKey = none → keyInput = "" →
      init_client secrets envKey keyInput = none) ∧
    (∀ (session : Option Img) (ui : UIInputs) (remote : Remote),
      init_client ui.secrets ui.envKey ui.keyInput = none →
      run_main session ui remote = .ok ⟨session, stopEffects⟩) := by
  refine ⟨?_, ?_, ?_, ?_, ?_⟩
  · intro s hss
    subst hss
    have hne : s ≠ "" := fun heq => hs (by rw [heq])
    simp [init_client, truthy, Option.or, hne]
  · intro hsn s hes
    subst hsn
    subst hes
    have hne : s ≠ "" := fun heq => he (by rw [heq])
    simp [init_client, truthy, Option.or, hne]
  · intro h1 h2 h3
    subst h1
    subst h2
    simp [init_client, truthy, Option.or, h3]
  · intro h1 h2 h3
    subst h1
    subst h2
    subst h3
    simp [init_client, truthy, Option.or]
  · intro session ui remote h
    simp [run_main, h]

/-- Witness for C4 with the secret store holding key `"k"`, no environment
variable and an empty interactive answer. -/
theorem api_key_priority_witness :
    (∀ s, (some "k" : Option String) = some s →
      init_client (some "k") none "" = some s) ∧
    ((some "k" : Option String) = none → ∀ s, (none : Option String) = some s →
      init_client (some "k") none "" = some s) ∧
    ((some "k" : Option String) = none → (none : Option String) = none →
      "" ≠ "" → init_client (some "k") none "" = some "") ∧
    ((some "k" : Option String) = none → (none : Option String) = none →
      "" = "" → init_client (some "k") none "" = none) ∧
    (∀ (session : Option Img) (ui : UIInputs) (remote : Remote),
      init_client ui.secrets ui.envKey ui.keyInput = none →
      run_main session ui remote = .ok ⟨session, stopEffects⟩) :=
  api_key_priority (some "k") none "" (by decide) (by decide)

/-- C5: modify mode with no uploaded file and no stored last-generated
image makes no remote call and shows the "Please upload an image or
generate one first" guidance (the `NoUsableInput` condition). -/
theorem modify_no_usable_input (session : Option Img) (ui : UIInputs)
    (remote : Remote)
    (hkey : init_client ui.secrets ui.envKey ui.keyInput ≠ none)
    (hpage : ui.page = .modify) (hup : ui.uploaded = none)
    (hsess : session = none) :
    run_main session ui remote = .ok ⟨session, infoEffects⟩ := by
  cases hk : init_client ui.secrets ui.envKey ui.keyInput with
  | none => exact absurd hk hkey
  | some k =>
    subst hsess
    simp [run_main, hk, hpage, hup]

/-- Modify-page widget values with nothing uploaded and the modify button
clicked. -/
def uiModifyEmpty : UIInputs :=
  ⟨some "k", none, "", .modify, "p", false, none, true, "m", true⟩

/-- Witness for C5: with no upload and an empty session slot, the run makes
no call (`infoEffects.calls = []`) and shows the guidance. -/
theorem modify_no_usable_input_witness :
    run_main none uiModifyEmpty sampleClient = .ok ⟨none, infoEffects⟩ :=
  modify_no_usable_input none uiModifyEmpty sampleClient (by decide) rfl rfl rfl

/-- An image is well-formed when its pixel payload matches its declared
dimensions. -/
def WF (img : Img) : Prop :=
  img.pixels.length = img.width * img.height

/-- Decoded images are well-formed. -/
theorem decodePNG_wf (d : Bytes) (img : Img) (h : decodePNG d = some img) :
    WF img := by
  match d with
  | [] => exact absurd h (by simp [decodePNG])
  | [w] => exact absurd h (by simp [decodePNG])
  | w :: hgt :: rest =>
    simp only [decodePNG] at h
    by_cases hlen : rest.length = w * hgt
    · rw [if_pos hlen] at h
      cases h
      exact hlen
    · rw [if_neg hlen] at h
      exact absurd h (by simp)

/-- The PNG codec round-trips well-formed images. -/
theorem encode_decode_id (img : Img) (h : WF img) :
    decodePNG (encodePNG img) = some img := by
  rw [WF] at h
  simp [encodePNG, decodePNG, h]

/-- C6: every image a successful `generate_image` returns survives the PNG
re-encoding done for the download button: encoding it to PNG bytes and
decoding those bytes again gives back the same image, pixel for pixel. -/
theorem generate_png_roundtrip (prompt : String) (client : Remote)
    (r : GenerationResult) (img : Img)
    (hok : generate_image prompt client = .ok r) (himg : r.image = some img) :
    decodePNG (encodePNG img) = some img := by
  have hatt := generate_image_ok prompt client r hok
  have hval := generateAttempt_ok_valid prompt client r hatt
  cases hval with
  | inl hnone => rw [himg] at hnone; exact absurd hnone (by simp)
  | inr hex =>
    obtain ⟨d, hd⟩ := hex
    rw [himg] at hd
    exact encode_decode_id img (decodePNG_wf d img hd)

/-- Witness for C6 at the sample client, whose response carries the 1×1
image `sampleImg`. -/
theorem generate_png_roundtrip_witness :
    decodePNG (encodePNG sampleImg) = some sampleImg :=
  generate_png_roundtrip "p" sampleClient ⟨some sampleImg, some "b"⟩
    sampleImg rfl rfl

/-- C7: the single session slot is overwritten by every successful
generation and every successful modification (a run whose call returned a
result carrying an image stores exactly that image), and the reuse-last-
image feature reads that same slot: with nothing uploaded and the checkbox
ticked, the request sent carries the slot's image as its source. -/
theorem session_slot_behaviour (session : Option Img) (ui : UIInputs)
    (remote : Remote)
    (hkey : init_client ui.secrets ui.envKey ui.keyInput ≠ none) :
    (∀ r img, ui.page = .generate → ui.generateClicked = true →
      generate_image ui.prompt remote = .ok r → r.image = some img →
      run_main session ui remote =
        .ok ⟨some img, successEffects (mkGenerateRequest ui.prompt)⟩) ∧
    (∀ d src r img, ui.page = .modify → ui.uploaded = some d →
      decodePNG d = some src → ui.modifyClicked = true →
      modify_image ui.modPrompt src remote = .ok r → r.image = some img →
      run_main session ui remote =
        .ok ⟨some img, successEffects (mkModifyRequest ui.modPrompt src)⟩) ∧
    (∀ img0, ui.page = .modify → ui.uploaded = none → session = some img0 →
      ui.useLastCheckbox = true → ui.modifyClicked = true →
      ∃ rr, run_main session ui remote = .ok rr ∧
        rr.effects.calls = [mkModifyRequest ui.modPrompt img0]) := by
  cases hk : init_client ui.secrets ui.envKey ui.keyInput with
  | none => exact absurd hk hkey
  | some k =>
    refine ⟨?_, ?_, ?_⟩
    · intro r img hpage hclick hg himg
      simp [run_main, hk, hpage, hclick, hg, himg]
    · intro d src r img hpage hup hdec hclick hm himg
      simp [run_main, hk, hpage, hup, hdec, runModify, hclick, hm, himg]
    · intro img0 hpage hup hsess hcheck hclick
      subst hsess
      cases hm : modify_image ui.modPrompt img0 remote with
      | error e =>
        refine ⟨⟨some img0, failureEffects (mkModifyRequest ui.modPrompt img0) e⟩,
          ?_, rfl⟩
        simp [run_main, hk, hpage, hup, hcheck, runModify, hclick, hm]
      | ok r =>
        cases hri : r.image with
        | some img =>
          refine ⟨⟨some img, successEffects (mkModifyRequest ui.modPrompt img0)⟩,
            ?_, rfl⟩
          simp [run_main, hk, hpage, hup, hcheck, runModify, hclick, hm, hri]
        | none =>
          refine ⟨⟨some img0, noImageEffects (mkModifyRequest ui.modPrompt img0)⟩,
            ?_, rfl⟩
          simp [run_main, hk, hpage, hup, hcheck, runModify, hclick, hm, hri]

/-- Generate-page widget values with the button clicked. -/
def uiGen : UIInputs :=
  ⟨some "k", none, "", .generate, "p", true, none, true, "m", false⟩

/-- Witness for C7, instantiated with the sample client. -/
theorem session_slot_behaviour_witness :
    (∀ r img, uiGen.page = .generate → uiGen.generateClicked = true →
      generate_image uiGen.prompt sampleClient = .ok r → r.image = some img →
      run_main none uiGen sampleClient =
        .ok ⟨some img, successEffects (mkGenerateRequest uiGen.prompt)⟩) ∧
    (∀ d src r img, uiGen.page = .modify → uiGen.uploaded = some d →
      decodePNG d = some src → uiGen.modifyClicked = true →
      modify_image uiGen.modPrompt src sampleClient = .ok r → r.image = some img →
      run_main none uiGen sampleClient =
        .ok ⟨some img, successEffects (mkModifyRequest uiGen.modPrompt src)⟩) ∧
    (∀ img0, uiGen.page = .modify → uiGen.uploaded = none →
      (none : Option Img) = some img0 →
      uiGen.useLastCheckbox = true → uiGen.modifyClicked = true →
      ∃ rr, run_main none uiGen sampleClient = .ok rr ∧
        rr.effects.calls = [mkModifyRequest uiGen.modPrompt img0]) :=
  session_slot_behaviour none uiGen sampleClient (by decide)

/-- A fold over parts none of which carries inline data always succeeds and
leaves the image field untouched. -/
theorem processParts_no_inline (parts : List Part) (r0 : GenerationResult)
    (h : ∀ p ∈ parts, p.inline_data = none) :
    ∃ r, processParts parts r0 = .ok r ∧ r.image = r0.image := by
  induction parts generalizing r0 with
  | nil => exact ⟨r0, rfl, rfl⟩
  | cons p ps ih =>
    have hp : p.inline_data = none := h p (by simp)
    have hps : ∀ q ∈ ps, q.inline_data = none := fun q hq => h q (by simp [hq])
    cases hpt : p.text with
    | some t =>
      obtain ⟨r, hr, hi⟩ := ih { r0 with text := some t } hps
      exact ⟨r, by rw [processParts_cons_text p ps r0 t hpt]; exact hr, hi⟩
    | none =>
      obtain ⟨r, hr, hi⟩ := ih r0 hps
      exact ⟨r, by rw [processParts_cons_skip p ps r0 hpt hp]; exact hr, hi⟩

/-- C8: when the remote response contains no inline-image part, the decoded
result's image field is `none`, and the run that made the call offers no
download button (and leaves the session slot alone). -/
theorem no_image_part_no_download (session : Option Img) (ui : UIInputs)
    (remote : Remote) (parts : List Part)
    (hkey : init_client ui.secrets ui.envKey ui.keyInput ≠ none)
    (hpage : ui.page = .generate) (hclick : ui.generateClicked = true)
    (hresp : remote (mkGenerateRequest ui.prompt) = .ok ⟨[⟨⟨parts⟩⟩]⟩)
    (hnoimg : ∀ p ∈ parts, p.inline_data = none) :
    (∃ r, generate_image ui.prompt remote = .ok r ∧ r.image = none) ∧
    run_main session ui remote =
      .ok ⟨session, noImageEffects (mkGenerateRequest ui.prompt)⟩ := by
  obtain ⟨r, hr, hi⟩ := processParts_no_inline parts ⟨none, none⟩ hnoimg
  have hg : generate_image ui.prompt remote = .ok r := by
    rw [generate_image, generateAttempt, hresp]
    simp only [Except.bind, decodeResponse, List.head?]
    rw [hr]
  refine ⟨⟨r, hg, hi⟩, ?_⟩
  cases hk : init_client ui.secrets ui.envKey ui.keyInput with
  | none => exact absurd hk hkey
  | some k => simp [run_main, hk, hpage, hclick, hg, hi]

/-- A remote behaviour answering every request with a single text part. -/
def textClient : Remote := fun _ => .ok ⟨[⟨⟨[⟨some "a", none⟩]⟩⟩]⟩

/-- Witness for C8: a text-only response yields an imageless result and a
run with no download button. -/
theorem no_image_part_no_download_witness :
    (∃ r, generate_image uiGen.prompt textClient = .ok r ∧ r.image = none) ∧
    run_main none uiGen textClient =
      .ok ⟨none, noImageEffects (mkGenerateRequest uiGen.prompt)⟩ :=
  no_image_part_no_download none uiGen textClient [⟨some "a", none⟩]
    (by decide) rfl rfl rfl (by decide)

/-- C9: in both part-decoders, a part carrying text takes the text branch
(`if part.text is not None` comes before the `elif` on inline data), so its
inline image bytes are ignored entirely: processing such a part only
overwrites the text field, and a response consisting of that part alone
leaves the image field exactly as it was. -/
theorem text_part_shadows_image (r : GenerationResult) (p : Part)
    (ps : List Part) (t : String) (ht : p.text = some t) :
    processParts (p :: ps) r = processParts ps { r with text := some t } ∧
    processPartsM (p :: ps) r = processPartsM ps { r with text := some t } ∧
    (∀ r2, processParts [p] r = .ok r2 → r2.image = r.image) := by
  refine ⟨processParts_cons_text p ps r t ht,
    processPartsM_cons_text p ps r t ht, ?_⟩
  intro r2 h2
  rw [processParts_cons_text p [] r t ht] at h2
  simp only [processParts] at h2
  cases h2
  rfl

/-- Witness for C9 at a part carrying both a text `"t"` and decodable
inline image bytes. -/
theorem text_part_shadows_image_witness :
    processParts (⟨some "t", some [1, 1, 42]⟩ :: []) ⟨none, none⟩ =
      processParts [] ⟨none, some "t"⟩ ∧
    processPartsM (⟨some "t", some [1, 1, 42]⟩ :: []) ⟨none, none⟩ =
      processPartsM [] ⟨none, some "t"⟩ ∧
    (∀ r2, processParts [⟨some "t", some [1, 1, 42]⟩] ⟨none, none⟩ = .ok r2 →
      r2.image = (⟨none, none⟩ : GenerationResult).image) :=
  text_part_shadows_image ⟨none, none⟩ ⟨some "t", some [1, 1, 42]⟩ [] "t" rfl

/-- A failure inside the modify-button handler leaves the slot alone. -/
theorem runModify_error_keeps_session (session : Option Img) (ui : UIInputs)
    (remote : Remote) (image : Img) (e : String)
    (h : (runModify session ui remote image).effects.errorMsg = some e) :
    (runModify session ui remote image).session = session := by
  rw [runModify] at h ⊢
  by_cases hc : ui.modifyClicked
  · rw [if_pos hc] at h ⊢
    cases hm : modify_image ui.modPrompt image remote with
    | error e2 => rfl
    | ok r =>
      cases hri : r.image with
      | some img =>
        simp only [hm, hri] at h
        simp [successEffects] at h
      | none => simp [hri]
  · rw [if_neg hc]

/-- C10: a failed attempt never overwrites the stored image. In any
completed run, if a failure was reported (`st.error` ran, so `generate` or
`modify` returned no result) the session slot is exactly what it was before
the run; in particular, on the generate page, a `generate_image` error
leaves the slot unchanged. -/
theorem failed_attempt_keeps_session (session : Option Img) (ui : UIInputs)
    (remote : Remote) (rr : RunResult)
    (hrun : run_main session ui remote = .ok rr) :
    (∀ e, rr.effects.errorMsg = some e → rr.session = session) ∧
    (∀ e, ui.page = .generate → generate_image ui.prompt remote = .error e →
      rr.session = session) := by
  cases hk : init_client ui.secrets ui.envKey ui.keyInput with
  | none =>
    simp only [run_main, hk] at hrun
    cases hrun
    exact ⟨fun e he => rfl, fun e hpg hge => rfl⟩
  | some k =>
    cases hpage : ui.page with
    | generate =>
      by_cases hclick : ui.generateClicked = true
      · cases hg : generate_image ui.prompt remote with
        | error e2 =>
          simp only [run_main, hk, hpage, hclick, hg, if_true] at hrun
          cases hrun
          exact ⟨fun e he => rfl, fun e hpg hge => rfl⟩
        | ok r =>
          cases hri : r.image with
          | some img =>
            simp only [run_main, hk, hpage, hclick, hg, hri, if_true] at hrun
            cases hrun
            constructor
            · intro e he
              exact absurd he (by simp [successEffects])
            · intro e hpg hge
              exact absurd hge (by simp)
          | none =>
            simp only [run_main, hk, hpage, hclick, hg, hri, if_true] at hrun
            cases hrun
            exact ⟨fun e he => rfl, fun e hpg hge => rfl⟩
      · have hcf : ui.generateClicked = false := by
          cases hcv : ui.generateClicked with
          | true => exact absurd hcv hclick
          | false => rfl
        simp only [run_main, hk, hpage, hcf, Bool.false_eq_true, if_false] at hrun
        cases hrun
        exact ⟨fun e he => rfl, fun e hpg hge => rfl⟩
    | modify =>
      cases hup : ui.uploaded with
      | some d =>
        cases hdec : decodePNG d with
        | none =>
          simp only [run_main, hk, hpage, hup, hdec] at hrun
          exact absurd hrun (by simp)
        | some image =>
          simp only [run_main, hk, hpage, hup, hdec] at hrun
          cases hrun
          exact ⟨fun e he => runModify_error_keeps_session session ui remote image e he,
            fun e hpg hge => Page.noConfusion hpg⟩
      | none =>
        cases hsess : session with
        | some image =>
          by_cases hcheck : ui.useLastCheckbox = true
          · simp only [run_main, hk, hpage, hup, hsess, hcheck, if_true] at hrun
            cases hrun
            exact ⟨fun e he =>
              runModify_error_keeps_session (some image) ui remote image e he,
              fun e hpg hge => Page.noConfusion hpg⟩
          · have hcf : ui.useLastCheckbox = false := by
              cases hcv : ui.useLastCheckbox with
              | true => exact absurd hcv hcheck
              | false => rfl
            simp only [run_main, hk, hpage, hup, hsess, hcf, Bool.false_eq_true,
              if_false] at hrun
            cases hrun
            exact ⟨fun e he => rfl, fun e hpg hge => Page.noConfusion hpg⟩
        | none =>
          simp only [run_main, hk, hpage, hup, hsess] at hrun
          cases hrun
          exact ⟨fun e he => rfl, fun e hpg hge => Page.noConfusion hpg⟩

/-- A remote behaviour that raises on every request. -/
def failClient : Remote := fun _ => .error "boom"

/-- Witness for C10: a run whose generation attempt raised keeps the
(empty) session slot unchanged. -/
theorem failed_attempt_keeps_session_witness :
    (∀ e, (failureEffects (mkGenerateRequest uiGen.prompt)
        ("Error generating image: " ++ "boom")).errorMsg = some e →
      (⟨none, failureEffects (mkGenerateRequest uiGen.prompt)
        ("Error generating image: " ++ "boom")⟩ : RunResult).session = none) ∧
    (∀ e, uiGen.page = .generate →
      generate_image uiGen.prompt failClient = .error e →
      (⟨none, failureEffects (mkGenerateRequest uiGen.prompt)
        ("Error generating image: " ++ "boom")⟩ : RunResult).session = none) :=
  failed_attempt_keeps_session none uiGen failClient
    ⟨none, failureEffects (mkGenerateRequest uiGen.prompt)
      ("Error generating image: " ++ "boom")⟩ rfl

end ImageApp
